import Mathlib

/-!
Shallow embedding of `gpustack/detectors/efsmi/efsmi.py` (the EFSMI GPU
detector) and proofs about it.

Modelling conventions:
* Python strings are Lean `String`s restricted to the ASCII fragment that the
  diagnostic tool emits; the regex character classes `\w`, `\s`, `\d` and
  `str.lower` are modelled over ASCII, which is exact for all inputs below.
* Python `float` values are modelled by `PyFloat` (an exact rational, or one
  of `inf`/`neginf`/`nan`).  The code performs no float arithmetic, only
  `float(token)` parsing, which is exact for the integer-valued tokens that
  occur in the properties below.
* Python dicts are modelled as insertion-ordered association lists with
  Python's key-equality (`pyEq`, which identifies `5` and `5.0` and keeps
  `nan` unequal to itself; CPython's identity shortcut for `nan` keys never
  matters here because parsed map keys are only ints and strings).
* Python exceptions become `Except PyErr`; the messages of the explicitly
  `raise`d exceptions are modelled verbatim, while `ValueError`/`IndexError`
  raised inside `int()`/`float()`/`[0]` are abstracted to the offending token
  (their exact runtime message is irrelevant to every property proved here).
* `subprocess.run` is the outside world: a completed invocation is a
  `CmdResult` (return code, captured stdout, captured stderr) supplied as an
  argument to the embedded functions.  Spawn failures (the `except` branch
  with `result is None`) do not occur in any property below.
-/

/-- Decidable equality on `Except`, used to evaluate the embedded functions
on concrete inputs. -/
instance {ε α : Type} [DecidableEq ε] [DecidableEq α] : DecidableEq (Except ε α) :=
  fun a b =>
    match a, b with
    | .error e, .error e' =>
        if h : e = e' then .isTrue (by rw [h]) else .isFalse (by simp [h])
    | .ok v, .ok v' =>
        if h : v = v' then .isTrue (by rw [h]) else .isFalse (by simp [h])
    | .error _, .ok _ => .isFalse (by simp)
    | .ok _, .error _ => .isFalse (by simp)

namespace EFSMI

/-- ASCII model of the regex class `\w` (word characters). -/
def isWordChar (c : Char) : Bool := c.isAlphanum || c = '_'

/-- ASCII model of the regex class `\s` / `str.strip` whitespace. -/
def isSpaceChar (c : Char) : Bool :=
  c = ' ' || c = '\t' || c = '\n' || c = '\r' || c = '\x0b' || c = '\x0c'

/-- Characters at which `str.splitlines` breaks a line. -/
def isLineBreak (c : Char) : Bool :=
  c = '\n' || c = '\r' || c = '\x0b' || c = '\x0c' || c = '\x1c' ||
  c = '\x1d' || c = '\x1e' || c = '\x85' || c = '\u2028' || c = '\u2029'

/-- Worker for `pySplitlines`: accumulates the current line in reverse. -/
def splitLinesAux : List Char → List Char → List String
  | [], acc => if acc.isEmpty then [] else [⟨acc.reverse⟩]
  | '\r' :: '\n' :: rest, acc => ⟨acc.reverse⟩ :: splitLinesAux rest []
  | c :: rest, acc =>
      if isLineBreak c then ⟨acc.reverse⟩ :: splitLinesAux rest []
      else splitLinesAux rest (c :: acc)

/-- Python `str.splitlines()`. -/
def pySplitlines (s : String) : List String := splitLinesAux s.data []

/-- Python `str.strip()` on a character list. -/
def pyStripC (cs : List Char) : List Char :=
  ((cs.dropWhile isSpaceChar).reverse.dropWhile isSpaceChar).reverse

/-- Python `str.strip()`. -/
def pyStripS (s : String) : String := ⟨pyStripC s.data⟩

/-- Python `str.lower()` (ASCII model). -/
def pyLower (s : String) : String := ⟨s.data.map Char.toLower⟩

/-- Python `str.replace(" ", "_")`. -/
def pyReplaceSpace (s : String) : String :=
  ⟨s.data.map (fun c => if c = ' ' then '_' else c)⟩

/-- Bool test for `needle in hay` on character lists. -/
def containsSubstr (needle : List Char) : List Char → Bool
  | [] => needle.isEmpty
  | c :: rest => needle.isPrefixOf (c :: rest) || containsSubstr needle rest

/-- Python `a.endswith(b)` on strings. -/
def endsWithStr (s suffix' : String) : Bool := suffix'.data.isSuffixOf s.data

/-- Worker for `pyTokens`: whitespace splitting with an accumulator. -/
def splitWsAux : List Char → List Char → List (List Char)
  | [], acc => if acc.isEmpty then [] else [acc.reverse]
  | c :: rest, acc =>
      if isSpaceChar c then
        if acc.isEmpty then splitWsAux rest [] else acc.reverse :: splitWsAux rest []
      else splitWsAux rest (c :: acc)

/-- Python `str.split()` (no separator: split on whitespace runs). -/
def pyTokens (cs : List Char) : List (List Char) := splitWsAux cs []

/-- Python `str.split()[0]`, made partial via `Option`: the first token. -/
def firstTokenC? (cs : List Char) : Option (List Char) := (pyTokens cs).head?

/-- Numeric value of a list of ASCII digits. -/
def natOfDigits (ds : List Char) : Nat :=
  ds.foldl (fun n c => 10 * n + (c.toNat - 48)) 0

/-- Tail of a Python digit sequence: digits with single underscores strictly
between digits. -/
def validDigitTail : List Char → Bool
  | [] => true
  | '_' :: rest =>
      match rest with
      | c :: rest2 => c.isDigit && validDigitTail rest2
      | [] => false
  | c :: rest => c.isDigit && validDigitTail rest

/-- Python digit sequence (nonempty, underscores only between digits). -/
def validDigitSeq : List Char → Bool
  | [] => false
  | c :: rest => c.isDigit && validDigitTail rest

/-- Python `int(s)` for a decimal string: strip, optional sign, digit
sequence with underscores; `none` models the `ValueError`. -/
def pyIntOfStr? (s : String) : Option Int :=
  let cs := pyStripC s.data
  let sgnRest : Int × List Char :=
    match cs with
    | '+' :: r => (1, r)
    | '-' :: r => (-1, r)
    | r => (1, r)
  if validDigitSeq sgnRest.2 then
    some (sgnRest.1 * (natOfDigits (sgnRest.2.filter (fun c => c ≠ '_')) : Int))
  else none

/-- A Python `float` value: exact rational, infinities, or `nan`. -/
inductive PyFloat where
  | finite (q : Rat)
  | inf
  | neginf
  | nan
deriving DecidableEq

/-- Split a character list at the first character satisfying `p`; the second
component is `none` when no such character exists. -/
def splitAtFirst (p : Char → Bool) : List Char → List Char × Option (List Char)
  | [] => ([], none)
  | c :: rest =>
      if p c then ([], some rest)
      else
        let r := splitAtFirst p rest
        (c :: r.1, r.2)

/-- Value and digit count of a possibly-empty Python digit sequence. -/
def optDigits? (cs : List Char) : Option (Nat × Nat) :=
  if cs.isEmpty then some (0, 0)
  else if validDigitSeq cs then
    let ds := cs.filter (fun c => c ≠ '_')
    some (natOfDigits ds, ds.length)
  else none

/-- Python `float(s)`: strip, optional sign, then `inf`/`infinity`/`nan`
(case-insensitive) or a decimal literal with optional fraction and exponent;
`none` models the `ValueError`. -/
def pyFloatOfStr? (s : String) : Option PyFloat :=
  let cs0 := pyStripC s.data
  if cs0.isEmpty then none
  else
    let sgnRest : Bool × List Char :=
      match cs0 with
      | '+' :: r => (false, r)
      | '-' :: r => (true, r)
      | r => (false, r)
    let neg := sgnRest.1
    let rest := sgnRest.2
    let low := rest.map Char.toLower
    if low = "inf".data || low = "infinity".data then
      some (if neg then .neginf else .inf)
    else if low = "nan".data then some .nan
    else
      let mantExp := splitAtFirst (fun c => c = 'e' || c = 'E') rest
      let ipFp := splitAtFirst (fun c => c = '.') mantExp.1
      let fpPart : Option (Nat × Nat) :=
        match ipFp.2 with
        | none => some (0, 0)
        | some fp => optDigits? fp
      match optDigits? ipFp.1, fpPart with
      | some ip, some fp =>
        if ip.2 = 0 && fp.2 = 0 then none
        else
          let base : Rat := (ip.1 : Rat) + (fp.1 : Rat) / ((10 : Rat) ^ fp.2)
          match mantExp.2 with
          | none => some (.finite (if neg then -base else base))
          | some ecs =>
            let esgnRest : Bool × List Char :=
              match ecs with
              | '+' :: r => (false, r)
              | '-' :: r => (true, r)
              | r => (false, r)
            if validDigitSeq esgnRest.2 then
              let e := natOfDigits (esgnRest.2.filter (fun c => c ≠ '_'))
              let scaled :=
                if esgnRest.1 then base / (10 : Rat) ^ e else base * (10 : Rat) ^ e
              some (.finite (if neg then -scaled else scaled))
            else none
      | _, _ => none

/-- A value stored in one of the parser's heterogeneous dicts. -/
inductive Val where
  | vStr (s : String)
  | vInt (n : Int)
  | vFloat (f : PyFloat)
deriving DecidableEq

/-- Python `==` on the values that can occur as dict keys: numbers compare by
value across `int`/`float`, strings structurally, `nan` unequal to itself,
and numbers never equal strings. -/
def pyEq : Val → Val → Bool
  | .vInt a, .vInt b => a = b
  | .vInt a, .vFloat (.finite q) => (a : Rat) = q
  | .vFloat (.finite q), .vInt b => q = (b : Rat)
  | .vFloat (.finite p), .vFloat (.finite q) => p = q
  | .vFloat .inf, .vFloat .inf => true
  | .vFloat .neginf, .vFloat .neginf => true
  | .vStr a, .vStr b => a = b
  | _, _ => false

/-- A Python exception as it propagates out of the detector. -/
inductive PyErr where
  | exception (msg : String)
  | valueError (tok : String)
  | indexError
  | keyError (k : Val)
deriving DecidableEq

/-- The per-device field dict (`current_device`): string keys, insertion
ordered. -/
abbrev PyDict := List (String × Val)

/-- The per-category device map (`devices`): Python-equality keys, insertion
ordered. -/
abbrev DevMap := List (Val × PyDict)

/-- Insertion-ordered update for a string-keyed dict: replace the first
matching slot in place, else append. -/
def dictSet : PyDict → String → Val → PyDict
  | [], k, v => [(k, v)]
  | p :: rest, k, v =>
      if p.1 = k then (p.1, v) :: rest else p :: dictSet rest k v

/-- Lookup in a string-keyed dict. -/
def dictGet : PyDict → String → Option Val
  | [], _ => none
  | p :: rest, k => if p.1 = k then some p.2 else dictGet rest k

/-- Insertion-ordered update for the device map: replace the first slot whose
stored key is Python-equal (keeping the stored key, as CPython does), else
append. -/
def dictSetV : DevMap → Val → PyDict → DevMap
  | [], k, v => [(k, v)]
  | p :: rest, k, v =>
      if pyEq p.1 k then (p.1, v) :: rest else p :: dictSetV rest k v

/-- Lookup in the device map under Python key equality. -/
def dictGetV : DevMap → Val → Option PyDict
  | [], _ => none
  | p :: rest, k => if pyEq p.1 k then some p.2 else dictGetV rest k

/-- Match of `re.compile(r"DEV ID (\d+)").match(line)`: the line must start
with `DEV ID ` followed by at least one digit; the result is `int(group(1))`
for the maximal digit run. -/
def devIdMatch (line : String) : Option Int :=
  match line.data with
  | 'D' :: 'E' :: 'V' :: ' ' :: 'I' :: 'D' :: ' ' :: rest =>
      let ds := rest.takeWhile Char.isDigit
      if ds.isEmpty then none else some (natOfDigits ds : Int)
  | _ => none

/-- Greedy key segment of the property regex: `\w+(?:\s\w+)*`, i.e. word
runs separated by single whitespace characters.  The head of the input is
assumed to be a word character. -/
def keySpan : List Char → List Char × List Char
  | [] => ([], [])
  | [c1] => if isWordChar c1 then ([c1], []) else ([], [c1])
  | c1 :: c2 :: rest =>
      if isWordChar c1 then
        let r := keySpan (c2 :: rest)
        (c1 :: r.1, r.2)
      else if isSpaceChar c1 && isWordChar c2 then
        let r := keySpan (c2 :: rest)
        (c1 :: r.1, r.2)
      else ([], c1 :: c2 :: rest)

/-- Match of `re.compile(r"^\s*(\w+(?:\s\w+)*)\s*:\s*(.*)$").match(line)`,
returning `(group(1), group(2))`.  The greedy left-to-right match of this
regex is deterministic because `\w` and `\s` are disjoint and giving back
star iterations can never make the following `\s*:` succeed. -/
def propertyMatch (line : String) : Option (String × String) :=
  let rest0 := line.data.dropWhile isSpaceChar
  match rest0 with
  | [] => none
  | c :: _ =>
      if isWordChar c then
        let kr := keySpan rest0
        match kr.2.dropWhile isSpaceChar with
        | ':' :: r3 => some (⟨kr.1⟩, ⟨r3.dropWhile isSpaceChar⟩)
        | _ => none
      else none

/-- Coercion of a temperature/usage value: `float(value.split()[0])`. -/
def floatCoerce (value : String) : Except PyErr Val :=
  match firstTokenC? value.data with
  | none => .error .indexError
  | some tok =>
      match pyFloatOfStr? ⟨tok⟩ with
      | some f => .ok (.vFloat f)
      | none => .error (.valueError ⟨tok⟩)

/-- The key-directed value coercion of `_get_gpu_info`: `*_Size` keys become
`int(value.split()[0]) * 1024 * 1024`, `GCU_Temp` and `GCU_Usage` become
`float(value.split()[0])`, everything else stays the stripped string.  The
three `if`s of the source are disjoint, so an `if`/`else` chain is exact. -/
def coerceVal (key value : String) : Except PyErr Val :=
  if endsWithStr key "_Size" then
    match firstTokenC? value.data with
    | none => .error .indexError
    | some tok =>
        match pyIntOfStr? ⟨tok⟩ with
        | some n => .ok (.vInt (n * 1024 * 1024))
        | none => .error (.valueError ⟨tok⟩)
  else if key = "GCU_Temp" then floatCoerce value
  else if key = "GCU_Usage" then floatCoerce value
  else .ok (.vStr value)

/-- The loop state of `_get_gpu_info`: the output map and the open
accumulator (`current_device`; the empty dict is Python-falsy = "closed"). -/
structure ParseState where
  devices : DevMap
  current : PyDict
deriving DecidableEq

/-- The initial parse state: empty output map, no open accumulator. -/
def initState : ParseState := ⟨[], []⟩

/-- Flush of the open accumulator: `if current_device:
devices[current_device["DEV_ID"]] = current_device`. -/
def flushCur (st : ParseState) : Except PyErr DevMap :=
  if st.current.isEmpty then .ok st.devices
  else
    match dictGet st.current "DEV_ID" with
    | some k => .ok (dictSetV st.devices k st.current)
    | none => .error (.keyError (.vStr "DEV_ID"))

/-- One iteration of the line loop of `_get_gpu_info`. -/
def processLine (st : ParseState) (line : String) : Except PyErr ParseState :=
  match devIdMatch line with
  | some n =>
      match flushCur st with
      | .error e => .error e
      | .ok d' => .ok ⟨d', [("DEV_ID", .vInt n)]⟩
  | none =>
      match propertyMatch line with
      | some kv =>
          if st.current.isEmpty then .ok st
          else
            let key := pyReplaceSpace kv.1
            let value := pyStripS kv.2
            match coerceVal key value with
            | .error e => .error e
            | .ok v => .ok ⟨st.devices, dictSet st.current key v⟩
      | none => .ok st

/-- The line loop of `_get_gpu_info` over a list of lines. -/
def foldProcess (st : ParseState) : List String → Except PyErr ParseState
  | [] => .ok st
  | l :: ls =>
      match processLine st l with
      | .error e => .error e
      | .ok st' => foldProcess st' ls

/-- The whole body of `_get_gpu_info` after `_run_command` succeeded: the
line loop followed by the final flush. -/
def parseLines (ls : List String) : Except PyErr DevMap :=
  match foldProcess initState ls with
  | .error e => .error e
  | .ok st => flushCur st

/-- The outcome of one completed `subprocess.run` invocation.  `stdout` is
`Option`al because the source defensively checks `result.stdout is None`;
`capture_output=True` in fact always yields a string. -/
structure CmdResult where
  returncode : Int
  stdout : Option String
  stderr : String
deriving DecidableEq

/-- Python `repr` of a plain string (no escapes needed for the inputs that
occur here), as used by f-string interpolation of a command list. -/
def pyReprStr (s : String) : String := "\x27" ++ s ++ "\x27"

/-- Python `str` of a list of strings, as interpolated by
`f"Failed to execute {command}: ..."`. -/
def pyReprList (xs : List String) : String :=
  "[" ++ String.intercalate ", " (xs.map pyReprStr) ++ "]"

/-- The message of the wrapped execution error for a nonzero return code:
`Failed to execute {command}: Unexpected return code: {rc}, stdout: {out},
stderr: {err}`. -/
def execErrMsg (command : List String) (rc : Int) (out err : String) : String :=
  "Failed to execute " ++ pyReprList command ++ ": Unexpected return code: " ++
    toString rc ++ ", stdout: " ++ out ++ ", stderr: " ++ err

/-- The message of the wrapped execution error for empty output. -/
def emptyErrMsg (command : List String) (rc : Int) (out err : String) : String :=
  "Failed to execute " ++ pyReprList command ++ ": Output is empty, return code: " ++
    toString rc ++ ", stdout: " ++ out ++ ", stderr: " ++ err

/-- `EFSMI._run_command` for a completed invocation: `None` stdout or a
"no devices" marker yield `None`; a nonzero return code or empty output raise
a wrapped `Exception`; otherwise the raw stdout is returned. -/
def runCommand (command : List String) (result : CmdResult) :
    Except PyErr (Option String) :=
  match result.stdout with
  | none => .ok none
  | some output =>
      if containsSubstr "no devices".data (pyLower output).data then .ok none
      else if result.returncode ≠ 0 then
        .error (.exception (execErrMsg command result.returncode output result.stderr))
      else if output = "" then
        .error (.exception (emptyErrMsg command result.returncode output result.stderr))
      else .ok (some output)

/-- `EFSMI._get_gpu_info`: run the command, raise on a `None` result, then
parse the stdout text line by line. -/
def getGpuInfo (command : List String) (result : CmdResult) :
    Except PyErr DevMap :=
  match runCommand command result with
  | .error e => .error e
  | .ok none => .error (.exception "Failed to get GPU base info")
  | .ok (some output) => parseLines (pySplitlines output)

/-- Modelled from the spec: `VendorEnum.Enflame.value` of the out-of-scope
schema module, "a fixed vendor constant". -/
def vendorEnflame : String := "Enflame"

/-- Modelled from the spec: `platform.DeviceTypeEnum.GPU.value` of the
out-of-scope platform module, "a fixed constant \"GPU\"". -/
def deviceTypeGPU : String := "GPU"

/-- The assembled output record (`GPUDeviceInfo` of the out-of-scope schema
module, restricted to the fields this detector populates; field values keep
the dynamic `Val` type of the dict lookups that produce them). -/
structure GPUDeviceInfo where
  index : Val
  device_index : Val
  device_chip_index : Val
  name : Val
  uuid : Val
  vendor : String
  devtype : String
  core_utilization_rate : Val
  memory_is_unified_memory : Bool
  memory_total : Val
  memory_used : Val
  memory_utilization_rate : Val
  temperature : Val
deriving DecidableEq

/-- Dict field lookup; a miss is Python's `KeyError(key)`. -/
def getItem (d : PyDict) (k : String) : Except PyErr Val :=
  match dictGet d k with
  | some v => .ok v
  | none => .error (.keyError (.vStr k))

/-- Device-map row lookup; a miss is Python's `KeyError(key)` carrying the
device id. -/
def getRow (m : DevMap) (k : Val) : Except PyErr PyDict :=
  match dictGetV m k with
  | some v => .ok v
  | none => .error (.keyError k)

/-- Construction of one `GPUDeviceInfo` in the loop of `_gather_gpu_info`;
the lookups occur in Python's left-to-right keyword-argument evaluation
order, so the first miss determines the raised `KeyError`. -/
def buildDevice (key : Val) (item : PyDict)
    (memory_info temperature_info usage_info : DevMap) :
    Except PyErr GPUDeviceInfo := do
  let idx ← getItem item "DEV_ID"
  let idx2 ← getItem item "DEV_ID"
  let idx3 ← getItem item "DEV_ID"
  let nm ← getItem item "Dev_Name"
  let uu ← getItem item "Dev_UUID"
  let urow ← getRow usage_info key
  let coreU ← getItem urow "GCU_Usage"
  let mrow ← getRow memory_info key
  let mtot ← getItem mrow "Total_Size"
  let mrow2 ← getRow memory_info key
  let mused ← getItem mrow2 "Used_Size"
  let urow2 ← getRow usage_info key
  let memU ← getItem urow2 "GCU_Usage"
  let trow ← getRow temperature_info key
  let temp ← getItem trow "GCU_Temp"
  pure { index := idx, device_index := idx2, device_chip_index := idx3,
         name := nm, uuid := uu, vendor := vendorEnflame,
         devtype := deviceTypeGPU, core_utilization_rate := coreU,
         memory_is_unified_memory := false, memory_total := mtot,
         memory_used := mused, memory_utilization_rate := memU,
         temperature := temp }

/-- The `for key, item in device_info.items()` loop of `_gather_gpu_info`:
records in identity-map order; the first failed lookup aborts the loop and
discards every record built so far. -/
def assembleAll (entries : DevMap)
    (memory_info temperature_info usage_info : DevMap) :
    Except PyErr (List GPUDeviceInfo) :=
  match entries with
  | [] => .ok []
  | (k, item) :: rest =>
      match buildDevice k item memory_info temperature_info usage_info with
      | .error e => .error e
      | .ok d =>
          match assembleAll rest memory_info temperature_info usage_info with
          | .error e => .error e
          | .ok ds => .ok (d :: ds)

/-- The identity category invocation `efsmi -q -d DEVICE`. -/
def cmdDevice : List String := ["efsmi", "-q", "-d", "DEVICE"]

/-- The memory category invocation `efsmi -q -d MEMORY`. -/
def cmdMemory : List String := ["efsmi", "-q", "-d", "MEMORY"]

/-- The temperature category invocation `efsmi -q -d TEMP`. -/
def cmdTemp : List String := ["efsmi", "-q", "-d", "TEMP"]

/-- The usage category invocation `efsmi -q -d USAGE`. -/
def cmdUsage : List String := ["efsmi", "-q", "-d", "USAGE"]

/-- `EFSMI._gather_gpu_info`, as a function of the four completed command
invocations (queried strictly in the order device, memory, temperature,
usage). -/
def gatherGpuInfo (rDevice rMemory rTemp rUsage : CmdResult) :
    Except PyErr (List GPUDeviceInfo) :=
  match getGpuInfo cmdDevice rDevice with
  | .error e => .error e
  | .ok device_info =>
      match getGpuInfo cmdMemory rMemory with
      | .error e => .error e
      | .ok memory_info =>
          match getGpuInfo cmdTemp rTemp with
          | .error e => .error e
          | .ok temperature_info =>
              match getGpuInfo cmdUsage rUsage with
              | .error e => .error e
              | .ok usage_info =>
                  assembleAll device_info memory_info temperature_info usage_info

/-- The effect of one non-boundary line on the open accumulator alone
(`processLine` never touches `devices` on such lines). -/
def processProp (c : PyDict) (line : String) : Except PyErr PyDict :=
  match propertyMatch line with
  | some kv =>
      if c.isEmpty then .ok c
      else
        match coerceVal (pyReplaceSpace kv.1) (pyStripS kv.2) with
        | .error e => .error e
        | .ok v => .ok (dictSet c (pyReplaceSpace kv.1) v)
  | none => .ok c

/-- The accumulator evolution over a run of non-boundary lines. -/
def foldCurrent (c : PyDict) : List String → Except PyErr PyDict
  | [] => .ok c
  | l :: ls =>
      match processProp c l with
      | .error e => .error e
      | .ok c' => foldCurrent c' ls

/-- The line loop followed by the final flush, from an arbitrary state. -/
def parseFrom (st : ParseState) (ls : List String) : Except PyErr DevMap :=
  match foldProcess st ls with
  | .error e => .error e
  | .ok st' => flushCur st'

/-- The accumulator a boundary line `DEV ID i` opens. -/
def seedDict (i : Int) : PyDict := [("DEV_ID", .vInt i)]

/-- A body line of a well-formed device block: not a device boundary, and if
it is a property line its normalized key is not the reserved key `DEV_ID`. -/
def goodBodyLine (l : String) : Bool :=
  devIdMatch l = none &&
    (match propertyMatch l with
     | some kv => !(pyReplaceSpace kv.1 = "DEV_ID")
     | none => true)

/-- A well-formed device block: a boundary line declaring the block's id,
followed by body lines that are not boundaries and never touch the reserved
`DEV_ID` key. -/
def goodBlock (b : Int × String × List String) : Prop :=
  devIdMatch b.2.1 = some b.1 ∧ ∀ l ∈ b.2.2, goodBodyLine l = true

/-- A well-formed category text, presented as its device blocks. -/
def goodBlocks (bs : List (Int × String × List String)) : Prop :=
  ∀ b ∈ bs, goodBlock b

/-- Well-formedness of one block is decidable. -/
instance goodBlockDecidable (b : Int × String × List String) :
    Decidable (goodBlock b) := by
  unfold goodBlock; infer_instance

/-- Well-formedness of a block list is decidable. -/
instance goodBlocksDecidable (bs : List (Int × String × List String)) :
    Decidable (goodBlocks bs) := by
  unfold goodBlocks; infer_instance

/-- The lines of a block-structured category text. -/
def joinBlocks (bs : List (Int × String × List String)) : List String :=
  (bs.map (fun b => b.2.1 :: b.2.2)).flatten

/-- Reference evaluation of a block-structured text: process each block's
body from its seeded accumulator and flush it into the map in order. -/
def modelBlocks (d : DevMap) : List (Int × String × List String) → Except PyErr DevMap
  | [] => .ok d
  | b :: bs =>
      match foldCurrent (seedDict b.1) b.2.2 with
      | .error e => .error e
      | .ok c' => modelBlocks (dictSetV d (.vInt b.1) c') bs

/-- The last block of a block list that declares id `i`. -/
def lastWith (i : Int) (bs : List (Int × String × List String)) :
    Option (Int × String × List String) :=
  (bs.filter (fun b => b.1 = i)).getLast?

/-- No two slots of a device map hold Python-equal keys. -/
def distinctKeys (m : DevMap) : Prop :=
  List.Pairwise (fun p q => pyEq p.1 q.1 = false) m

/-- String containment as a proposition on the underlying character lists. -/
def strIncl (needle hay : String) : Prop := needle.data <:+: hay.data

/-! General lemmas about the embedded functions. -/

/-- Appending strings appends their character lists. -/
theorem strData_append (a b : String) : (a ++ b).data = a.data ++ b.data := rfl

/-- The line loop splits over list append. -/
theorem foldProcess_append (st : ParseState) (xs ys : List String) :
    foldProcess st (xs ++ ys) =
      match foldProcess st xs with
      | .error e => .error e
      | .ok st' => foldProcess st' ys := by
  induction xs generalizing st with
  | nil => simp [foldProcess]
  | cons l ls ih =>
      simp only [List.cons_append, foldProcess]
      cases processLine st l with
      | error e => rfl
      | ok st' => exact ih st'

/-- Claim C1 (corrected), main theorem: whenever captured stdout contains the
"no devices" marker, `_run_command` returns the no-data result `None`
without raising, but `_get_gpu_info` then raises "Failed to get GPU base
info" for that category instead of producing an empty RawCategoryMap. -/
theorem c1_no_devices_runner_none_parse_raises
    (command : List String) (r : CmdResult) (out : String)
    (hout : r.stdout = some out)
    (hmark : containsSubstr "no devices".data (pyLower out).data = true) :
    runCommand command r = .ok none ∧
    getGpuInfo command r = .error (.exception "Failed to get GPU base info") := by
  have h1 : runCommand command r = .ok none := by
    simp [runCommand, hout, hmark]
  exact ⟨h1, by simp [getGpuInfo, h1]⟩

/-- Claim C1 witness: a concrete invocation whose stdout holds the marker. -/
theorem c1_no_devices_runner_none_parse_raises_witness :
    containsSubstr "no devices".data (pyLower "  no devices  ").data = true ∧
    (runCommand cmdMemory ⟨0, some "  no devices  ", ""⟩ = .ok none ∧
     getGpuInfo cmdMemory ⟨0, some "  no devices  ", ""⟩ =
       .error (.exception "Failed to get GPU base info")) :=
  ⟨by decide,
   c1_no_devices_runner_none_parse_raises cmdMemory ⟨0, some "  no devices  ", ""⟩
     "  no devices  " rfl (by decide)⟩

/-- Claim C1 counterexample: for a category invocation whose stdout holds the
"no devices" marker, the category parse does not succeed with an empty map —
it raises an error. -/
theorem c1_counterexample :
    getGpuInfo cmdDevice ⟨0, some "No devices were found", ""⟩ =
      .error (.exception "Failed to get GPU base info") := by decide

unseal Rat.add Rat.mul Rat.inv in
/-- Claim C3 (confirmed): the end-to-end scenario of the spec.  Identity
yields one block (id 0, name "GCU0", uuid "abc"), memory yields total
"32768 MiB" and used "1024 MiB", temperature "45 C", usage "12 %"; the
gather returns exactly one record with index 0, name "GCU0", uuid "abc",
memory total 34359738368 and used 1073741824 bytes, memory and core
utilization 12.0, temperature 45.0, and unified memory false. -/
theorem c3_end_to_end :
    gatherGpuInfo
      ⟨0, some "DEV ID 0\nDev Name : GCU0\nDev UUID : abc", ""⟩
      ⟨0, some "DEV ID 0\nTotal Size : 32768 MiB\nUsed Size : 1024 MiB", ""⟩
      ⟨0, some "DEV ID 0\nGCU Temp : 45 C", ""⟩
      ⟨0, some "DEV ID 0\nGCU Usage : 12 %", ""⟩ =
    .ok [{ index := .vInt 0, device_index := .vInt 0, device_chip_index := .vInt 0,
           name := .vStr "GCU0", uuid := .vStr "abc", vendor := "Enflame",
           devtype := "GPU", core_utilization_rate := .vFloat (.finite 12),
           memory_is_unified_memory := false, memory_total := .vInt 34359738368,
           memory_used := .vInt 1073741824,
           memory_utilization_rate := .vFloat (.finite 12),
           temperature := .vFloat (.finite 45) }] := by decide

/-- Claim C5 (corrected), main theorem: for a completed invocation with a
nonzero exit status and nonempty stdout that does not contain the "no
devices" marker, `_run_command` raises the wrapped execution error, and its
message contains the exit code, the invoked command, the captured stdout and
the captured stderr. -/
theorem c5_nonzero_exit_raises
    (command : List String) (r : CmdResult) (out : String)
    (hout : r.stdout = some out)
    (hmark : containsSubstr "no devices".data (pyLower out).data = false)
    (hrc : r.returncode ≠ 0)
    (_hne : out ≠ "") :
    runCommand command r =
      .error (.exception (execErrMsg command r.returncode out r.stderr)) ∧
    strIncl (toString r.returncode) (execErrMsg command r.returncode out r.stderr) ∧
    strIncl (pyReprList command) (execErrMsg command r.returncode out r.stderr) ∧
    strIncl out (execErrMsg command r.returncode out r.stderr) ∧
    strIncl r.stderr (execErrMsg command r.returncode out r.stderr) := by
  refine ⟨by simp [runCommand, hout, hmark, hrc], ?_, ?_, ?_, ?_⟩
  · exact ⟨("Failed to execute " ++ pyReprList command ++
        ": Unexpected return code: ").data,
      (", stdout: " ++ out ++ ", stderr: " ++ r.stderr).data, by
        simp [execErrMsg, strData_append, List.append_assoc]⟩
  · exact ⟨"Failed to execute ".data,
      (": Unexpected return code: " ++ toString r.returncode ++ ", stdout: " ++
        out ++ ", stderr: " ++ r.stderr).data, by
        simp [execErrMsg, strData_append, List.append_assoc]⟩
  · exact ⟨("Failed to execute " ++ pyReprList command ++
        ": Unexpected return code: " ++ toString r.returncode ++ ", stdout: ").data,
      (", stderr: " ++ r.stderr).data, by
        simp [execErrMsg, strData_append, List.append_assoc]⟩
  · exact ⟨("Failed to execute " ++ pyReprList command ++
        ": Unexpected return code: " ++ toString r.returncode ++ ", stdout: " ++
        out ++ ", stderr: ").data, [], by
        simp [execErrMsg, strData_append, List.append_assoc]⟩

/-- Claim C5 witness: a concrete failing invocation with exit code 2. -/
theorem c5_nonzero_exit_raises_witness :
    ((2 : Int) ≠ 0) ∧
    (runCommand cmdMemory ⟨2, some "boom", "errs"⟩ =
      .error (.exception (execErrMsg cmdMemory 2 "boom" "errs")) ∧
     strIncl (toString (2 : Int)) (execErrMsg cmdMemory 2 "boom" "errs") ∧
     strIncl (pyReprList cmdMemory) (execErrMsg cmdMemory 2 "boom" "errs") ∧
     strIncl "boom" (execErrMsg cmdMemory 2 "boom" "errs") ∧
     strIncl "errs" (execErrMsg cmdMemory 2 "boom" "errs")) :=
  ⟨by decide,
   c5_nonzero_exit_raises cmdMemory ⟨2, some "boom", "errs"⟩ "boom" rfl
     (by decide) (by decide) (by decide)⟩

/-- Claim C5 counterexample: an invocation that exits with status 1 and
produces the nonempty stdout "no devices" raises nothing — the runner
returns the no-data result, because the marker check precedes the exit-code
check. -/
theorem c5_counterexample :
    runCommand cmdDevice ⟨1, some "no devices", ""⟩ = .ok none := by decide

/-- Claim C7 (corrected), main theorem: a property line whose normalized key
ends with "_Size" (case-sensitively) and whose value's first
whitespace-delimited token parses as the integer `n` stores the integer byte
count `n * 1024 * 1024` in the open accumulator. -/
theorem c7_size_coercion (st : ParseState) (line kraw vraw : String)
    (tok : List Char) (n : Int)
    (hnb : devIdMatch line = none)
    (hprop : propertyMatch line = some (kraw, vraw))
    (hcur : st.current.isEmpty = false)
    (hkey : endsWithStr (pyReplaceSpace kraw) "_Size" = true)
    (htok : firstTokenC? (pyStripS vraw).data = some tok)
    (hint : pyIntOfStr? ⟨tok⟩ = some n) :
    processLine st line =
      .ok ⟨st.devices,
           dictSet st.current (pyReplaceSpace kraw) (.vInt (n * 1024 * 1024))⟩ := by
  simp [processLine, hnb, hprop, hcur, coerceVal, hkey, htok, hint]

/-- Claim C7 witness: the spec's own example, a "100 MiB" value under a size
key parses to 104857600 bytes. -/
theorem c7_size_coercion_witness :
    pyIntOfStr? ⟨"100".data⟩ = some 100 ∧
    processLine ⟨[], [("DEV_ID", .vInt 0)]⟩ "Total Size : 100 MiB" =
      .ok ⟨[], [("DEV_ID", .vInt 0), ("Total_Size", .vInt 104857600)]⟩ :=
  ⟨by decide,
   c7_size_coercion ⟨[], [("DEV_ID", .vInt 0)]⟩ "Total Size : 100 MiB"
     "Total Size" "100 MiB" "100".data 100 (by decide) (by decide) (by decide)
     (by decide) (by decide) (by decide)⟩

/-- Claim C7 counterexample: the key "Total_size" ends with "size" and its
value's first token is the valid integer 100, yet the parser stores the raw
string "100 MiB", not 104857600 — the code's suffix test is the
case-sensitive "_Size". -/
theorem c7_counterexample :
    endsWithStr "Total_size" "size" = true ∧
    pyIntOfStr? "100" = some 100 ∧
    parseLines ["DEV ID 0", "Total size : 100 MiB"] =
      .ok [(.vInt 0, [("DEV_ID", .vInt 0), ("Total_size", .vStr "100 MiB")])] := by
  decide

/-- Taking digits from an append whose first part is all digits keeps the
first part and continues into the second. -/
theorem takeWhile_digits_append (ds rest : List Char)
    (h : ∀ c ∈ ds, c.isDigit = true) :
    (ds ++ rest).takeWhile Char.isDigit = ds ++ rest.takeWhile Char.isDigit := by
  induction ds with
  | nil => simp
  | cons c cs ih =>
      have hc := h c (List.mem_cons_self c cs)
      simp only [List.cons_append, List.takeWhile_cons, hc, if_true]
      rw [ih (fun x hx => h x (List.mem_cons_of_mem c hx))]

/-- Evaluation of the boundary regex on a line starting with `DEV ID `. -/
theorem devIdMatch_head (tail : List Char) :
    devIdMatch ⟨'D' :: 'E' :: 'V' :: ' ' :: 'I' :: 'D' :: ' ' :: tail⟩ =
      (if (tail.takeWhile Char.isDigit).isEmpty then none
       else some (natOfDigits (tail.takeWhile Char.isDigit) : Int)) := rfl

/-- Claim C9 (corrected), main theorem: a line that starts with `DEV ID `
followed by a nonempty maximal digit run is a device boundary: it flushes
the open accumulator (if any) into the output map under that accumulator's
recorded id, and opens a new accumulator holding exactly the reserved
`DEV_ID` key with the parsed integer id. -/
theorem c9_boundary (st : ParseState) (w : Val) (ds rest : List Char)
    (hds : ds.isEmpty = false)
    (hdig : ∀ c ∈ ds, c.isDigit = true)
    (hrest : rest.takeWhile Char.isDigit = [])
    (hcur : st.current.isEmpty = true ∨ dictGet st.current "DEV_ID" = some w) :
    processLine st ⟨'D' :: 'E' :: 'V' :: ' ' :: 'I' :: 'D' :: ' ' :: (ds ++ rest)⟩ =
      .ok ⟨if st.current.isEmpty then st.devices
           else dictSetV st.devices w st.current,
           [("DEV_ID", .vInt (natOfDigits ds))]⟩ := by
  have hm : devIdMatch ⟨'D' :: 'E' :: 'V' :: ' ' :: 'I' :: 'D' :: ' ' :: (ds ++ rest)⟩ =
      some (natOfDigits ds : Int) := by
    rw [devIdMatch_head, takeWhile_digits_append ds rest hdig, hrest]
    simp [hds]
  rcases hcur with hc | hc
  · simp [processLine, hm, flushCur, hc]
  · have hne : st.current.isEmpty = false := by
      cases hcc : st.current with
      | nil => rw [hcc] at hc; simp [dictGet] at hc
      | cons a l => rfl
    simp [processLine, hm, flushCur, hne, hc]

/-- Claim C9 witness: the boundary line `DEV ID 7` flushes an open
accumulator for id 0 and opens a fresh accumulator for id 7. -/
theorem c9_boundary_witness :
    processLine ⟨[], [("DEV_ID", .vInt 0), ("Foo", .vStr "x")]⟩ "DEV ID 7" =
      .ok ⟨[(.vInt 0, [("DEV_ID", .vInt 0), ("Foo", .vStr "x")])],
           [("DEV_ID", .vInt 7)]⟩ :=
  c9_boundary ⟨[], [("DEV_ID", .vInt 0), ("Foo", .vStr "x")]⟩ (.vInt 0) ['7'] []
    (by decide) (by decide) (by decide) (Or.inr (by decide))

/-- Claim C9 counterexample: the line "foo DEV ID 1" contains the text
`DEV ID 1` but is not treated as a device boundary — the boundary regex is
matched with `re.match`, anchored at the start of the line — so no entry
for id 1 appears and the open block for id 0 is unaffected. -/
theorem c9_counterexample :
    containsSubstr "DEV ID 1".data "foo DEV ID 1".data = true ∧
    parseLines ["DEV ID 0", "foo DEV ID 1"] =
      .ok [(.vInt 0, [("DEV_ID", .vInt 0)])] := by decide

/-- Processing a non-boundary line from the initial state leaves the state
unchanged (property lines are dropped while no accumulator is open). -/
theorem processLine_no_boundary_init (l : String) (h : devIdMatch l = none) :
    processLine initState l = .ok initState := by
  unfold processLine
  rw [h]
  cases propertyMatch l with
  | none => rfl
  | some kv => rfl

/-- Claim C6 (confirmed), main theorem: lines preceding the first device
boundary contribute nothing — parsing a text that starts with any run of
non-boundary lines equals parsing the remainder alone, so in particular a
property line before the first boundary appears in no entry of the output
map (and hence in no emitted record). -/
theorem c6_preamble_dropped (pre rest : List String)
    (hpre : ∀ l ∈ pre, devIdMatch l = none) :
    parseLines (pre ++ rest) = parseLines rest := by
  have hfold : foldProcess initState pre = .ok initState := by
    induction pre with
    | nil => rfl
    | cons l ls ih =>
        have h1 := processLine_no_boundary_init l (hpre l (by simp))
        have h2 := ih (fun x hx => hpre x (by simp [hx]))
        simp [foldProcess, h1, h2]
  unfold parseLines
  rw [foldProcess_append, hfold]

/-- Claim C6 witness: a property line before the first boundary is dropped;
parsing with it equals parsing without it. -/
theorem c6_preamble_dropped_witness :
    devIdMatch "Dev Name : GCU9" = none ∧
    parseLines ["Dev Name : GCU9", "DEV ID 0"] = parseLines ["DEV ID 0"] :=
  ⟨by decide,
   c6_preamble_dropped ["Dev Name : GCU9"] ["DEV ID 0"] (by decide)⟩

/-- Claim C8 (confirmed), main theorem: if the line loop reaches, with an
open accumulator, a property line whose key demands numeric coercion and
whose value's leading token cannot be parsed (that is, `coerceVal` fails),
then the parse of the whole category text fails with that error — no
default value is stored. -/
theorem c8_coercion_failure (pre post : List String) (bad : String)
    (st : ParseState) (kraw vraw : String) (e : PyErr)
    (hpre : foldProcess initState pre = .ok st)
    (hcur : st.current.isEmpty = false)
    (hnb : devIdMatch bad = none)
    (hprop : propertyMatch bad = some (kraw, vraw))
    (hfail : coerceVal (pyReplaceSpace kraw) (pyStripS vraw) = .error e) :
    parseLines (pre ++ bad :: post) = .error e := by
  have hline : processLine st bad = .error e := by
    simp [processLine, hnb, hprop, hcur, hfail]
  unfold parseLines
  rw [foldProcess_append, hpre]
  simp [foldProcess, hline]

/-- Claim C8 witness: the temperature value "hot" has no numeric leading
token, so the whole category parse fails with the `ValueError` and no
record with a default temperature is produced. -/
theorem c8_coercion_failure_witness :
    coerceVal "GCU_Temp" "hot" = .error (.valueError "hot") ∧
    parseLines ["DEV ID 0", "GCU Temp : hot"] = .error (.valueError "hot") :=
  ⟨by decide,
   c8_coercion_failure ["DEV ID 0"] [] "GCU Temp : hot"
     ⟨[], [("DEV_ID", .vInt 0)]⟩ "GCU Temp" "hot" (.valueError "hot")
     (by decide) (by decide) (by decide) (by decide) (by decide)⟩

/-- The assembly loop splits over list append; an error while handling the
suffix discards the records already built for the prefix. -/
theorem assembleAll_append (pre rest mm tm um : DevMap) :
    assembleAll (pre ++ rest) mm tm um =
      match assembleAll pre mm tm um with
      | .error e => .error e
      | .ok ds =>
          match assembleAll rest mm tm um with
          | .error e => .error e
          | .ok ds' => .ok (ds ++ ds') := by
  induction pre with
  | nil =>
      simp only [List.nil_append, assembleAll]
      cases assembleAll rest mm tm um <;> rfl
  | cons p ps ih =>
      obtain ⟨k, item⟩ := p
      simp only [List.cons_append, assembleAll]
      cases buildDevice k item mm tm um with
      | error e => rfl
      | ok d =>
          simp only [List.append_eq]
          rw [ih]
          cases assembleAll ps mm tm um with
          | error e => rfl
          | ok ds =>
              cases assembleAll rest mm tm um with
              | error e => rfl
              | ok ds' => rfl

/-- Construction of a record for id `k` raises `KeyError(k)` when `k` is
missing from the usage, memory or temperature map and every dict lookup
evaluated before the missing one succeeds (lookups happen in Python's
left-to-right evaluation order: identity fields, usage, memory,
temperature). -/
theorem buildDevice_keyerror (k : Val) (item : PyDict)
    (mm tm um : DevMap) (iv nv uv : Val)
    (hid : dictGet item "DEV_ID" = some iv)
    (hnm : dictGet item "Dev_Name" = some nv)
    (huu : dictGet item "Dev_UUID" = some uv)
    (hmiss : dictGetV um k = none ∨
      (∃ ur gv, dictGetV um k = some ur ∧ dictGet ur "GCU_Usage" = some gv ∧
        dictGetV mm k = none) ∨
      (∃ ur gv mr t1 u1, dictGetV um k = some ur ∧
        dictGet ur "GCU_Usage" = some gv ∧ dictGetV mm k = some mr ∧
        dictGet mr "Total_Size" = some t1 ∧ dictGet mr "Used_Size" = some u1 ∧
        dictGetV tm k = none)) :
    buildDevice k item mm tm um = .error (.keyError k) := by
  rcases hmiss with hu | ⟨ur, gv, hur, hgv, hm⟩ |
    ⟨ur, gv, mr, t1, u1, hur, hgv, hmr, ht1, hu1, ht⟩
  · simp [buildDevice, getItem, getRow, hid, hnm, huu, hu, Bind.bind, Except.bind]
  · simp [buildDevice, getItem, getRow, hid, hnm, huu, hur, hgv, hm,
      Bind.bind, Except.bind]
  · simp [buildDevice, getItem, getRow, hid, hnm, huu, hur, hgv, hmr, ht1, hu1,
      ht, Bind.bind, Except.bind]

/-- Claim C2 (corrected), main theorem: when the four category queries parse
successfully and some id `k` of the identity map (whose identity fields are
present, and whose lookups before the missing one succeed) is absent from
the usage, memory or temperature map, the whole gather aborts with the
single error `KeyError(k)` — which identifies the missing id but not the
category — and no partial record list is returned. -/
theorem c2_missing_id_aborts
    (rD rM rT rU : CmdResult) (dm mm tm um : DevMap)
    (pre post : List (Val × PyDict)) (recs : List GPUDeviceInfo)
    (k : Val) (item : PyDict) (iv nv uv : Val)
    (hD : getGpuInfo cmdDevice rD = .ok dm)
    (hM : getGpuInfo cmdMemory rM = .ok mm)
    (hT : getGpuInfo cmdTemp rT = .ok tm)
    (hU : getGpuInfo cmdUsage rU = .ok um)
    (hsplit : dm = pre ++ (k, item) :: post)
    (hpre : assembleAll pre mm tm um = .ok recs)
    (hid : dictGet item "DEV_ID" = some iv)
    (hnm : dictGet item "Dev_Name" = some nv)
    (huu : dictGet item "Dev_UUID" = some uv)
    (hmiss : dictGetV um k = none ∨
      (∃ ur gv, dictGetV um k = some ur ∧ dictGet ur "GCU_Usage" = some gv ∧
        dictGetV mm k = none) ∨
      (∃ ur gv mr t1 u1, dictGetV um k = some ur ∧
        dictGet ur "GCU_Usage" = some gv ∧ dictGetV mm k = some mr ∧
        dictGet mr "Total_Size" = some t1 ∧ dictGet mr "Used_Size" = some u1 ∧
        dictGetV tm k = none)) :
    gatherGpuInfo rD rM rT rU = .error (.keyError k) := by
  have hb := buildDevice_keyerror k item mm tm um iv nv uv hid hnm huu hmiss
  subst hsplit
  simp only [gatherGpuInfo, hD, hM, hT, hU]
  rw [assembleAll_append, hpre]
  simp [assembleAll, hb]

unseal Rat.add Rat.mul Rat.inv in
/-- Claim C2 witness: identity, memory and temperature report id 0 but the
usage query reports only id 1, so the gather aborts with `KeyError(0)` and
returns no records. -/
theorem c2_missing_id_aborts_witness :
    dictGetV [((.vInt 1 : Val), [("DEV_ID", (.vInt 1 : Val)),
        ("GCU_Usage", (.vFloat (.finite 12) : Val))])] (.vInt 0) = none ∧
    gatherGpuInfo
      ⟨0, some "DEV ID 0\nDev Name : GCU0\nDev UUID : abc", ""⟩
      ⟨0, some "DEV ID 0\nTotal Size : 32768 MiB\nUsed Size : 1024 MiB", ""⟩
      ⟨0, some "DEV ID 0\nGCU Temp : 45 C", ""⟩
      ⟨0, some "DEV ID 1\nGCU Usage : 12 %", ""⟩ =
      .error (.keyError (.vInt 0)) :=
  ⟨by decide,
   c2_missing_id_aborts
     ⟨0, some "DEV ID 0\nDev Name : GCU0\nDev UUID : abc", ""⟩
     ⟨0, some "DEV ID 0\nTotal Size : 32768 MiB\nUsed Size : 1024 MiB", ""⟩
     ⟨0, some "DEV ID 0\nGCU Temp : 45 C", ""⟩
     ⟨0, some "DEV ID 1\nGCU Usage : 12 %", ""⟩
     [(.vInt 0, [("DEV_ID", .vInt 0), ("Dev_Name", .vStr "GCU0"),
        ("Dev_UUID", .vStr "abc")])]
     [(.vInt 0, [("DEV_ID", .vInt 0), ("Total_Size", .vInt 34359738368),
        ("Used_Size", .vInt 1073741824)])]
     [(.vInt 0, [("DEV_ID", .vInt 0), ("GCU_Temp", .vFloat (.finite 45))])]
     [(.vInt 1, [("DEV_ID", .vInt 1), ("GCU_Usage", .vFloat (.finite 12))])]
     [] [] []
     (.vInt 0)
     [("DEV_ID", .vInt 0), ("Dev_Name", .vStr "GCU0"), ("Dev_UUID", .vStr "abc")]
     (.vInt 0) (.vStr "GCU0") (.vStr "abc")
     (by decide) (by decide) (by decide) (by decide) (by decide) (by decide)
     (by decide) (by decide) (by decide) (Or.inl (by decide))⟩

unseal Rat.add Rat.mul Rat.inv in
/-- Claim C2 counterexample: the raised error does not identify the category
the id is missing from.  Omitting id 0 from the memory query and omitting it
from the temperature query produce the identical error `KeyError(0)`; the
parsed memory map of the first scenario and the parsed temperature map of
the second indeed lack id 0. -/
theorem c2_counterexample :
    gatherGpuInfo
      ⟨0, some "DEV ID 0\nDev Name : GCU0\nDev UUID : abc", ""⟩
      ⟨0, some "DEV ID 1\nTotal Size : 32768 MiB\nUsed Size : 1024 MiB", ""⟩
      ⟨0, some "DEV ID 0\nGCU Temp : 45 C", ""⟩
      ⟨0, some "DEV ID 0\nGCU Usage : 12 %", ""⟩ =
      .error (.keyError (.vInt 0)) ∧
    gatherGpuInfo
      ⟨0, some "DEV ID 0\nDev Name : GCU0\nDev UUID : abc", ""⟩
      ⟨0, some "DEV ID 0\nTotal Size : 32768 MiB\nUsed Size : 1024 MiB", ""⟩
      ⟨0, some "DEV ID 1\nGCU Temp : 45 C", ""⟩
      ⟨0, some "DEV ID 0\nGCU Usage : 12 %", ""⟩ =
      .error (.keyError (.vInt 0)) ∧
    getGpuInfo cmdMemory
      ⟨0, some "DEV ID 1\nTotal Size : 32768 MiB\nUsed Size : 1024 MiB", ""⟩ =
      .ok [(.vInt 1, [("DEV_ID", .vInt 1), ("Total_Size", .vInt 34359738368),
        ("Used_Size", .vInt 1073741824)])] ∧
    getGpuInfo cmdTemp ⟨0, some "DEV ID 1\nGCU Temp : 45 C", ""⟩ =
      .ok [(.vInt 1, [("DEV_ID", .vInt 1),
        ("GCU_Temp", .vFloat (.finite 45))])] := by
  refine ⟨by decide, by decide, by decide, by decide⟩

/-- Updating a dict never makes it empty. -/
theorem dictSet_isEmpty (c : PyDict) (k : String) (v : Val) :
    (dictSet c k v).isEmpty = false := by
  cases c with
  | nil => rfl
  | cons p rest =>
      simp only [dictSet]
      split <;> rfl

/-- Updating one key leaves lookups of other keys unchanged. -/
theorem dictGet_dictSet_ne (c : PyDict) (k k' : String) (v : Val)
    (h : k' ≠ k) : dictGet (dictSet c k v) k' = dictGet c k' := by
  have h' : ¬(k = k') := fun hh => h hh.symm
  induction c with
  | nil => simp [dictSet, dictGet, h']
  | cons p rest ih =>
      simp only [dictSet]
      by_cases hp : p.1 = k
      · have hp' : ¬(p.1 = k') := by rw [hp]; exact h'
        simp [dictGet, hp, hp', h']
      · simp [dictGet, hp, ih]

/-- Python equality is reflexive on integer keys. -/
theorem pyEq_vInt_refl (a : Int) : pyEq (.vInt a) (.vInt a) = true := by
  simp [pyEq]

/-- Two Python-equal integer keys are equal: no value is Python-equal to two
different integers. -/
theorem pyEq_vInt_both (p : Val) (a b : Int)
    (ha : pyEq p (.vInt a) = true) (hb : pyEq p (.vInt b) = true) : a = b := by
  cases p with
  | vStr s => simp [pyEq] at ha
  | vInt c =>
      simp [pyEq] at ha hb
      rw [← ha, ← hb]
  | vFloat f =>
      cases f with
      | finite q =>
          simp [pyEq] at ha hb
          have : ((a : Rat) : Rat) = (b : Rat) := by rw [← ha, ← hb]
          exact_mod_cast this
      | inf => simp [pyEq] at ha
      | neginf => simp [pyEq] at ha
      | nan => simp [pyEq] at ha

/-- Python equality is symmetric. -/
theorem pyEq_symm (a b : Val) : pyEq a b = pyEq b a := by
  cases a with
  | vStr s =>
      cases b with
      | vStr t => simp [pyEq, eq_comm]
      | vInt n => rfl
      | vFloat f => cases f <;> rfl
  | vInt n =>
      cases b with
      | vStr t => rfl
      | vInt m => simp [pyEq, eq_comm]
      | vFloat f => cases f <;> simp [pyEq, eq_comm]
  | vFloat f =>
      cases b with
      | vStr t => cases f <;> rfl
      | vInt m => cases f <;> simp [pyEq, eq_comm]
      | vFloat g => cases f <;> cases g <;> simp [pyEq, eq_comm]

/-- Lookup of a key right after setting it. -/
theorem dictGetV_setV_self (d : DevMap) (k : Val) (v : PyDict)
    (hk : pyEq k k = true) : dictGetV (dictSetV d k v) k = some v := by
  induction d with
  | nil => simp [dictSetV, dictGetV, hk]
  | cons p rest ih =>
      simp only [dictSetV]
      by_cases hp : pyEq p.1 k = true
      · simp [dictGetV, hp]
      · simp [dictGetV, hp, ih]

/-- Setting one integer key leaves lookups of a different integer key
unchanged. -/
theorem dictGetV_setV_vInt_ne (d : DevMap) (a b : Int) (v : PyDict)
    (hab : a ≠ b) :
    dictGetV (dictSetV d (.vInt a) v) (.vInt b) = dictGetV d (.vInt b) := by
  induction d with
  | nil => simp [dictSetV, dictGetV, pyEq, hab]
  | cons p rest ih =>
      simp only [dictSetV]
      by_cases hp : pyEq p.1 (.vInt a) = true
      · have hq : pyEq p.1 (.vInt b) = false := by
          cases hq : pyEq p.1 (.vInt b) with
          | false => rfl
          | true => exact absurd (pyEq_vInt_both p.1 a b hp hq) hab
        simp [dictGetV, hp, hq]
      · simp only [hp, if_false, Bool.false_eq_true, if_neg, ite_false]
        by_cases hq : pyEq p.1 (.vInt b) = true
        · simp [dictGetV, hq]
        · simp [dictGetV, hq, ih]

/-- Setting an absent key appends it at the end. -/
theorem dictSetV_fresh (d : DevMap) (k : Val) (v : PyDict)
    (h : dictGetV d k = none) : dictSetV d k v = d ++ [(k, v)] := by
  induction d with
  | nil => rfl
  | cons p rest ih =>
      by_cases hp : pyEq p.1 k = true
      · simp [dictGetV, hp] at h
      · have h' : dictGetV rest k = none := by
          simpa [dictGetV, hp] using h
        simp [dictSetV, hp, ih h']

/-- Lookup distributes over dict append. -/
theorem dictGetV_append (d₁ d₂ : DevMap) (k : Val) :
    dictGetV (d₁ ++ d₂) k =
      match dictGetV d₁ k with
      | some v => some v
      | none => dictGetV d₂ k := by
  induction d₁ with
  | nil => simp [dictGetV]
  | cons p rest ih =>
      by_cases hp : pyEq p.1 k = true
      · simp [dictGetV, hp]
      · simp [dictGetV, hp, ih]

/-- Every key of an updated dict is an old key or the inserted key. -/
theorem dictSetV_keys (d : DevMap) (k : Val) (v : PyDict) :
    ∀ q ∈ dictSetV d k v, (∃ p ∈ d, q.1 = p.1) ∨ q = (k, v) := by
  induction d with
  | nil => intro q hq; simp [dictSetV] at hq; exact Or.inr hq
  | cons p rest ih =>
      intro q hq
      simp only [dictSetV] at hq
      by_cases hp : pyEq p.1 k = true
      · simp only [hp, if_true] at hq
        rcases List.mem_cons.mp hq with hq | hq
        · exact Or.inl ⟨p, List.mem_cons_self p rest, by rw [hq]⟩
        · exact Or.inl ⟨q, List.mem_cons_of_mem p hq, rfl⟩
      · simp only [hp] at hq
        rcases List.mem_cons.mp hq with hq | hq
        · exact Or.inl ⟨p, List.mem_cons_self p rest, by rw [hq]⟩
        · rcases ih q hq with ⟨p', hp', he⟩ | he
          · exact Or.inl ⟨p', List.mem_cons_of_mem p hp', he⟩
          · exact Or.inr he

/-- Updating a dict with pairwise Python-distinct keys keeps its keys
pairwise Python-distinct. -/
theorem distinctKeys_setV (d : DevMap) (k : Val) (v : PyDict)
    (hd : distinctKeys d) : distinctKeys (dictSetV d k v) := by
  induction d with
  | nil => simp [dictSetV, distinctKeys]
  | cons p rest ih =>
      have hd1 := (List.pairwise_cons.mp hd).1
      have hd2 := (List.pairwise_cons.mp hd).2
      simp only [dictSetV]
      by_cases hp : pyEq p.1 k = true
      · simp only [hp, if_true]
        exact List.pairwise_cons.mpr ⟨hd1, hd2⟩
      · simp only [hp]
        refine List.pairwise_cons.mpr ⟨?_, ih hd2⟩
        intro q hq
        rcases dictSetV_keys rest k v q hq with ⟨p', hp', he⟩ | he
        · rw [he]; exact hd1 p' hp'
        · rw [he]
          exact Bool.not_eq_true _ ▸ hp

/-- On a non-boundary line, the line loop acts on the accumulator alone and
leaves the output map untouched. -/
theorem processLine_of_nonboundary (d : DevMap) (c : PyDict) (l : String)
    (h : devIdMatch l = none) :
    processLine ⟨d, c⟩ l =
      match processProp c l with
      | .error e => .error e
      | .ok c' => .ok ⟨d, c'⟩ := by
  unfold processLine processProp
  rw [h]
  cases propertyMatch l with
  | none => rfl
  | some kv =>
      cases hc : c.isEmpty with
      | true => simp [hc]
      | false =>
          simp only [hc, Bool.false_eq_true, if_neg, ite_false]
          cases coerceVal (pyReplaceSpace kv.1) (pyStripS kv.2) <;> simp

/-- A well-formed body line is not a device boundary. -/
theorem goodBodyLine_nonboundary (l : String) (h : goodBodyLine l = true) :
    devIdMatch l = none := by
  unfold goodBodyLine at h
  exact of_decide_eq_true (Bool.and_elim_left h)

/-- A well-formed body line never writes the reserved key. -/
theorem goodBodyLine_key (l : String) (kv : String × String)
    (h : goodBodyLine l = true) (hp : propertyMatch l = some kv) :
    pyReplaceSpace kv.1 ≠ "DEV_ID" := by
  unfold goodBodyLine at h
  have h2 := Bool.and_elim_right h
  rw [hp] at h2
  simpa using h2

/-- A well-formed body line keeps the accumulator nonempty and preserves the
reserved `DEV_ID` entry. -/
theorem processProp_preserves (c : PyDict) (l : String) (w : Val) (c' : PyDict)
    (hc : c.isEmpty = false) (hw : dictGet c "DEV_ID" = some w)
    (hl : goodBodyLine l = true) (hres : processProp c l = .ok c') :
    c'.isEmpty = false ∧ dictGet c' "DEV_ID" = some w := by
  unfold processProp at hres
  cases hp : propertyMatch l with
  | none =>
      rw [hp] at hres
      injection hres with hres
      rw [← hres]; exact ⟨hc, hw⟩
  | some kv =>
      rw [hp, hc] at hres
      simp only [Bool.false_eq_true, if_neg, ite_false] at hres
      cases hco : coerceVal (pyReplaceSpace kv.1) (pyStripS kv.2) with
      | error e => rw [hco] at hres; cases hres
      | ok v =>
          rw [hco] at hres
          injection hres with hres
          rw [← hres]
          refine ⟨dictSet_isEmpty c (pyReplaceSpace kv.1) v, ?_⟩
          rw [dictGet_dictSet_ne c (pyReplaceSpace kv.1) "DEV_ID" v
            (Ne.symm (goodBodyLine_key l kv hl hp))]
          exact hw

/-- Over a run of non-boundary lines, the line loop is the accumulator fold
with the output map passed through. -/
theorem foldCurrent_spec (d : DevMap) (c : PyDict) (ls : List String)
    (h : ∀ l ∈ ls, devIdMatch l = none) :
    foldProcess ⟨d, c⟩ ls =
      match foldCurrent c ls with
      | .error e => .error e
      | .ok c' => .ok ⟨d, c'⟩ := by
  induction ls generalizing c with
  | nil => rfl
  | cons l ls ih =>
      have h1 := processLine_of_nonboundary d c l (h l (List.mem_cons_self l ls))
      simp only [foldProcess, foldCurrent, h1]
      cases processProp c l with
      | error e => rfl
      | ok c1 => exact ih c1 (fun x hx => h x (List.mem_cons_of_mem l hx))

/-- A successful accumulator fold over well-formed body lines keeps the
accumulator nonempty and its `DEV_ID` entry intact. -/
theorem foldCurrent_preserves (c : PyDict) (ls : List String) (w : Val)
    (c' : PyDict) (hc : c.isEmpty = false) (hw : dictGet c "DEV_ID" = some w)
    (hl : ∀ l ∈ ls, goodBodyLine l = true)
    (hres : foldCurrent c ls = .ok c') :
    c'.isEmpty = false ∧ dictGet c' "DEV_ID" = some w := by
  induction ls generalizing c with
  | nil =>
      unfold foldCurrent at hres
      injection hres with hres
      rw [← hres]; exact ⟨hc, hw⟩
  | cons l ls ih =>
      unfold foldCurrent at hres
      cases hp : processProp c l with
      | error e => rw [hp] at hres; cases hres
      | ok c1 =>
          rw [hp] at hres
          have h1 := processProp_preserves c l w c1 hc hw
            (hl l (List.mem_cons_self l ls)) hp
          exact ih c1 h1.1 h1.2 (fun x hx => hl x (List.mem_cons_of_mem l hx))
            hres

/-- Flushing a nonempty accumulator with recorded id `w` stores it under
`w`. -/
theorem flushCur_of (d : DevMap) (c : PyDict) (w : Val)
    (hc : c.isEmpty = false) (hw : dictGet c "DEV_ID" = some w) :
    flushCur ⟨d, c⟩ = .ok (dictSetV d w c) := by
  simp [flushCur, hc, hw]

/-- The parse of a text in block form equals the reference block-by-block
evaluation, starting inside an open block. -/
theorem parseFrom_blocks (bs : List (Int × String × List String)) :
    ∀ (d : DevMap) (c : PyDict) (w : Val), goodBlocks bs →
    c.isEmpty = false → dictGet c "DEV_ID" = some w →
    parseFrom ⟨d, c⟩ (joinBlocks bs) = modelBlocks (dictSetV d w c) bs := by
  induction bs with
  | nil =>
      intro d c w _ hc hw
      simp only [joinBlocks, List.map_nil, List.flatten_nil, parseFrom,
        foldProcess, modelBlocks]
      exact flushCur_of d c w hc hw
  | cons b rest ih =>
      intro d c w hgood hc hw
      have hb := hgood b (List.mem_cons_self b rest)
      have hjoin : joinBlocks (b :: rest) = b.2.1 :: (b.2.2 ++ joinBlocks rest) := by
        simp [joinBlocks]
      rw [hjoin]
      unfold parseFrom
      have hhead : processLine ⟨d, c⟩ b.2.1 = .ok ⟨dictSetV d w c, seedDict b.1⟩ := by
        simp [processLine, hb.1, flushCur_of d c w hc hw, seedDict]
      simp only [foldProcess, hhead]
      rw [foldProcess_append]
      have hbodyn : ∀ l ∈ b.2.2, devIdMatch l = none :=
        fun l hl => goodBodyLine_nonboundary l (hb.2 l hl)
      rw [foldCurrent_spec (dictSetV d w c) (seedDict b.1) b.2.2 hbodyn]
      cases hfc : foldCurrent (seedDict b.1) b.2.2 with
      | error e => simp [modelBlocks, hfc]
      | ok c' =>
          have hpres := foldCurrent_preserves (seedDict b.1) b.2.2
            (.vInt b.1) c' rfl rfl hb.2 hfc
          have hrest := ih (dictSetV d w c) c' (.vInt b.1)
            (fun x hx => hgood x (List.mem_cons_of_mem b hx)) hpres.1 hpres.2
          unfold parseFrom at hrest
          simp only [modelBlocks, hfc]
          exact hrest

/-- The parse of a well-formed block-structured text equals the reference
block-by-block evaluation. -/
theorem parse_joinBlocks (bs : List (Int × String × List String))
    (hgood : goodBlocks bs) :
    parseLines (joinBlocks bs) = modelBlocks [] bs := by
  cases bs with
  | nil => rfl
  | cons b rest =>
      have hb := hgood b (List.mem_cons_self b rest)
      have hjoin : joinBlocks (b :: rest) = b.2.1 :: (b.2.2 ++ joinBlocks rest) := by
        simp [joinBlocks]
      have hpl : parseLines (joinBlocks (b :: rest)) =
          parseFrom initState (joinBlocks (b :: rest)) := rfl
      rw [hpl, hjoin]
      unfold parseFrom
      have hhead : processLine initState b.2.1 = .ok ⟨[], seedDict b.1⟩ := by
        simp [processLine, hb.1, flushCur, initState, seedDict]
      simp only [foldProcess, hhead]
      rw [foldProcess_append]
      have hbodyn : ∀ l ∈ b.2.2, devIdMatch l = none :=
        fun l hl => goodBodyLine_nonboundary l (hb.2 l hl)
      rw [foldCurrent_spec ([] : DevMap) (seedDict b.1) b.2.2 hbodyn]
      cases hfc : foldCurrent (seedDict b.1) b.2.2 with
      | error e => simp [modelBlocks, hfc]
      | ok c' =>
          have hpres := foldCurrent_preserves (seedDict b.1) b.2.2
            (.vInt b.1) c' rfl rfl hb.2 hfc
          have hrest := parseFrom_blocks rest [] c' (.vInt b.1)
            (fun x hx => hgood x (List.mem_cons_of_mem b hx)) hpres.1 hpres.2
          unfold parseFrom at hrest
          simp only [modelBlocks, hfc]
          exact hrest

/-- Keys of the reference evaluation: with fresh, pairwise-distinct block
ids the final map holds the initial keys followed by one key per block, in
order. -/
theorem modelBlocks_keys (bs : List (Int × String × List String)) :
    ∀ (d m : DevMap),
    (∀ b ∈ bs, dictGetV d (.vInt b.1) = none) →
    (bs.map (fun b => b.1)).Nodup →
    modelBlocks d bs = .ok m →
    m.map Prod.fst = d.map Prod.fst ++ bs.map (fun b => Val.vInt b.1) := by
  induction bs with
  | nil =>
      intro d m _ _ hok
      injection hok with hok
      rw [← hok]; simp
  | cons b rest ih =>
      intro d m hfresh hnodup hok
      unfold modelBlocks at hok
      cases hfc : foldCurrent (seedDict b.1) b.2.2 with
      | error e => rw [hfc] at hok; cases hok
      | ok c' =>
          rw [hfc] at hok
          have hkey := hfresh b (List.mem_cons_self b rest)
          have hset := dictSetV_fresh d (.vInt b.1) c' hkey
          have hnd := List.nodup_cons.mp hnodup
          have hfresh' : ∀ x ∈ rest,
              dictGetV (dictSetV d (.vInt b.1) c') (.vInt x.1) = none := by
            intro x hx
            rw [hset, dictGetV_append, hfresh x (List.mem_cons_of_mem b hx)]
            have hne : ¬(b.1 = x.1) := by
              intro he
              apply hnd.1
              have hmm := List.mem_map_of_mem
                (fun y : Int × String × List String => y.1) hx
              simpa [← he] using hmm
            simp [dictGetV, pyEq, hne]
          have hm := ih (dictSetV d (.vInt b.1) c') m hfresh' hnd.2 hok
          rw [hm, hset]
          simp

/-- The last element of a list with an explicit head exists. -/
theorem getLast?_cons_some (a : α) (l : List α) :
    ∃ b, (a :: l).getLast? = some b :=
  ⟨(a :: l).getLast (by simp), rfl⟩

/-- Prepending to a nonempty list does not change its last element. -/
theorem getLast?_cons_cons' (a b : α) (l : List α) :
    (a :: b :: l).getLast? = (b :: l).getLast? := rfl

/-- A list has no last element exactly when it is empty. -/
theorem getLast?_none_iff (l : List α) : l.getLast? = none ↔ l = [] := by
  cases l with
  | nil => simp
  | cons a as => simp [List.getLast?]

/-- There is no last block with id `i` exactly when no block declares id
`i`. -/
theorem lastWith_none_iff (i : Int) (bs : List (Int × String × List String)) :
    lastWith i bs = none ↔ i ∉ bs.map (fun b => b.1) := by
  unfold lastWith
  rw [getLast?_none_iff, List.filter_eq_nil_iff]
  simp only [decide_eq_true_eq]
  constructor
  · intro h hmem
    obtain ⟨x, hx, hxi⟩ := List.mem_map.mp hmem
    exact h x hx hxi
  · intro h x hx hxi
    exact h (List.mem_map.mpr ⟨x, hx, hxi⟩)

/-- Lookup in the reference evaluation: the entry for id `i` is the
accumulator of the last block declaring `i`, and absent ids fall back to the
initial map. -/
theorem modelBlocks_lookup (bs : List (Int × String × List String)) :
    ∀ (d m : DevMap), modelBlocks d bs = .ok m → ∀ i : Int,
    (match lastWith i bs with
     | some b => ∃ c', foldCurrent (seedDict b.1) b.2.2 = .ok c' ∧
         dictGetV m (.vInt i) = some c'
     | none => dictGetV m (.vInt i) = dictGetV d (.vInt i)) := by
  induction bs with
  | nil =>
      intro d m hok i
      injection hok with hok
      have hlw : lastWith i ([] : List (Int × String × List String)) = none := rfl
      rw [hlw, ← hok]
  | cons b rest ih =>
      intro d m hok i
      unfold modelBlocks at hok
      cases hfc : foldCurrent (seedDict b.1) b.2.2 with
      | error e => rw [hfc] at hok; cases hok
      | ok c0 =>
          rw [hfc] at hok
          have IH := ih (dictSetV d (.vInt b.1) c0) m hok i
          by_cases hbi : b.1 = i
          · cases hF : rest.filter (fun x => x.1 = i) with
            | nil =>
                have hlw : lastWith i rest = none := by
                  unfold lastWith; rw [hF]; rfl
                rw [hlw] at IH
                have hr : lastWith i (b :: rest) = some b := by
                  unfold lastWith; simp [List.filter_cons, hbi, hF]
                rw [hr]
                refine ⟨c0, hfc, ?_⟩
                rw [IH]
                subst hbi
                exact dictGetV_setV_self d (.vInt b.1) c0 (pyEq_vInt_refl b.1)
            | cons f fs =>
                obtain ⟨b', hg⟩ := getLast?_cons_some f fs
                have hlw : lastWith i rest = some b' := by
                  unfold lastWith; rw [hF]; exact hg
                have hr : lastWith i (b :: rest) = some b' := by
                  unfold lastWith
                  have hfil : (b :: rest).filter (fun x => x.1 = i) =
                      b :: f :: fs := by
                    simp [List.filter_cons, hbi, hF]
                  rw [hfil, getLast?_cons_cons', hg]
                rw [hr]
                rw [hlw] at IH
                exact IH
          · have hr : lastWith i (b :: rest) = lastWith i rest := by
              unfold lastWith; simp [List.filter_cons, hbi]
            rw [hr]
            cases hlw : lastWith i rest with
            | some b' =>
                rw [hlw] at IH
                exact IH
            | none =>
                rw [hlw] at IH
                rw [IH, dictGetV_setV_vInt_ne d b.1 i c0 hbi]

/-- The reference evaluation keeps the keys pairwise Python-distinct. -/
theorem modelBlocks_distinct (bs : List (Int × String × List String)) :
    ∀ (d m : DevMap), distinctKeys d → modelBlocks d bs = .ok m →
    distinctKeys m := by
  induction bs with
  | nil =>
      intro d m hd hok
      injection hok with hok
      rw [← hok]; exact hd
  | cons b rest ih =>
      intro d m hd hok
      unfold modelBlocks at hok
      cases hfc : foldCurrent (seedDict b.1) b.2.2 with
      | error e => rw [hfc] at hok; cases hok
      | ok c0 =>
          rw [hfc] at hok
          exact ih _ m (distinctKeys_setV d _ c0 hd) hok

/-- Claim C4 (confirmed), main theorem: a successful parse of a well-formed
category text with pairwise-distinct declared block ids yields a map with
exactly one entry per block, keyed (in order) by each block's declared
integer id. -/
theorem c4_entries_per_block (bs : List (Int × String × List String))
    (m : DevMap) (hgood : goodBlocks bs)
    (hnodup : (bs.map (fun b => b.1)).Nodup)
    (hok : parseLines (joinBlocks bs) = .ok m) :
    m.map Prod.fst = bs.map (fun b => Val.vInt b.1) := by
  rw [parse_joinBlocks bs hgood] at hok
  have h := modelBlocks_keys bs [] m (fun b _ => rfl) hnodup hok
  simpa using h

/-- Claim C4 witness: a two-block text with distinct ids 0 and 2 parses to a
map with exactly those two keys in order. -/
theorem c4_entries_per_block_witness :
    parseLines (joinBlocks
      [((0 : Int), "DEV ID 0", ["Dev Name : A"]), ((2 : Int), "DEV ID 2", [])]) =
      .ok [(.vInt 0, [("DEV_ID", .vInt 0), ("Dev_Name", .vStr "A")]),
           (.vInt 2, [("DEV_ID", .vInt 2)])] ∧
    ([((.vInt 0 : Val), [("DEV_ID", (.vInt 0 : Val)),
        ("Dev_Name", (.vStr "A" : Val))]),
      ((.vInt 2 : Val), [("DEV_ID", (.vInt 2 : Val))])]).map Prod.fst =
      [Val.vInt 0, Val.vInt 2] :=
  ⟨by decide,
   c4_entries_per_block
     [((0 : Int), "DEV ID 0", ["Dev Name : A"]), ((2 : Int), "DEV ID 2", [])]
     [(.vInt 0, [("DEV_ID", .vInt 0), ("Dev_Name", .vStr "A")]),
      (.vInt 2, [("DEV_ID", .vInt 2)])]
     (by decide) (by decide) (by decide)⟩

/-- Claim C10 (confirmed), main theorem: in a successful parse of a
well-formed block-structured text (duplicate declared ids allowed) the
output map has pairwise-distinct keys, holds an entry for an integer id
exactly when some block declares it, and the entry for each id is the full
accumulator of the last block in input order declaring that id — later
blocks overwrite earlier ones. -/
theorem c10_last_block_wins (bs : List (Int × String × List String))
    (m : DevMap) (hgood : goodBlocks bs)
    (hok : parseLines (joinBlocks bs) = .ok m) :
    distinctKeys m ∧
    (∀ i : Int, (dictGetV m (.vInt i)).isSome = true ↔
      i ∈ bs.map (fun b => b.1)) ∧
    (∀ i : Int, ∀ b, lastWith i bs = some b →
      ∃ c', foldCurrent (seedDict b.1) b.2.2 = .ok c' ∧
        dictGetV m (.vInt i) = some c') := by
  rw [parse_joinBlocks bs hgood] at hok
  refine ⟨modelBlocks_distinct bs [] m List.Pairwise.nil hok, ?_, ?_⟩
  · intro i
    have hl := modelBlocks_lookup bs [] m hok i
    cases hlw : lastWith i bs with
    | some b =>
        rw [hlw] at hl
        obtain ⟨c', _, h2⟩ := hl
        have hne : ¬(lastWith i bs = none) := by rw [hlw]; simp
        have hm : i ∈ bs.map (fun b => b.1) := by
          by_contra hc
          exact hne ((lastWith_none_iff i bs).mpr hc)
        exact ⟨fun _ => hm, fun _ => by rw [h2]; rfl⟩
    | none =>
        rw [hlw] at hl
        have hm := (lastWith_none_iff i bs).mp hlw
        constructor
        · intro hs
          rw [hl] at hs
          simp [dictGetV] at hs
        · intro hmem
          exact absurd hmem hm
  · intro i b hlw
    have hl := modelBlocks_lookup bs [] m hok i
    rw [hlw] at hl
    exact hl

/-- Claim C10 witness: two blocks both declaring id 0; the parsed map holds
a single entry for id 0 whose fields are those of the second block. -/
theorem c10_last_block_wins_witness :
    parseLines (joinBlocks
      [((0 : Int), "DEV ID 0", ["Note : first"]),
       ((0 : Int), "DEV ID 0", ["Note : second"])]) =
      .ok [(.vInt 0, [("DEV_ID", .vInt 0), ("Note", .vStr "second")])] ∧
    dictGetV [((.vInt 0 : Val), [("DEV_ID", (.vInt 0 : Val)),
        ("Note", (.vStr "second" : Val))])] (.vInt 0) =
      some [("DEV_ID", .vInt 0), ("Note", .vStr "second")] := by
  refine ⟨by decide, ?_⟩
  have h := c10_last_block_wins
    [((0 : Int), "DEV ID 0", ["Note : first"]),
     ((0 : Int), "DEV ID 0", ["Note : second"])]
    [(.vInt 0, [("DEV_ID", .vInt 0), ("Note", .vStr "second")])]
    (by decide) (by decide)
  obtain ⟨c', hc1, hc2⟩ := h.2.2 0 ((0 : Int), "DEV ID 0", ["Note : second"])
    (by decide)
  have hev : foldCurrent (seedDict 0) ["Note : second"] =
      .ok [("DEV_ID", .vInt 0), ("Note", .vStr "second")] := by decide
  rw [hev] at hc1
  injection hc1 with hc1
  rw [← hc1] at hc2
  exact hc2

end EFSMI
